import Mathlib

/-!
Shallow embedding of the pgsql repository store
(`server/internal/store/pgsql/repos.go`): the repo row type, the
dynamic query builder `listSQL`, the store operations `List`, `Create`
and `Update`, and a denotational semantics for the SQL fragments the
builder emits (WHERE conjuncts, LIKE patterns, ORDER BY), so that
properties of the produced queries can be stated and proved.
-/

set_option autoImplicit false

namespace ReposStore

deriving instance DecidableEq for Except

/-- Matching of a SQL LIKE pattern against a subject, both given as
character lists, with explicit fuel so the recursion is structural.
The percent sign matches any sequence of characters and the underscore
matches exactly one character; every other pattern character is literal
(the queries in the source use no ESCAPE clause). Each recursive call
shortens the pattern or the subject, so fuel above their combined
length never runs out. -/
def likeMatchAux : Nat → List Char → List Char → Bool
  | 0, _, _ => false
  | _ + 1, [], s => s.isEmpty
  | fuel + 1, p :: ps, [] =>
    if p = '%' then likeMatchAux fuel ps [] else false
  | fuel + 1, p :: ps, c :: s2 =>
    if p = '%' then
      (likeMatchAux fuel ps (c :: s2) || likeMatchAux fuel (p :: ps) s2)
    else
      (if p = '_' then true else p == c) && likeMatchAux fuel ps s2

/-- LIKE matching with enough fuel for the whole run. -/
def likeMatch (ps s : List Char) : Bool :=
  likeMatchAux (ps.length + s.length + 1) ps s

/-- Evaluation of `s LIKE pat` for whole strings. -/
def likeStr (s pat : String) : Bool := likeMatch pat.data s.data

/-- Lowercasing (Go `strings.ToLower`, ASCII range), defined by mapping
over the characters so it evaluates structurally. -/
def toLowerStr (s : String) : String := String.mk (s.data.map Char.toLower)

/-- Go `strings.TrimSpace`: surrounding whitespace removed. -/
def trimSpace (s : String) : String :=
  String.mk
    (((s.data.dropWhile Char.isWhitespace).reverse.dropWhile
      Char.isWhitespace).reverse)

/-- Accumulator pass of `strings.Fields`: `cur` holds the reversed
characters of the word being read. -/
def fieldsAux (cur : List Char) : List Char → List (List Char)
  | [] => if cur = [] then [] else [cur.reverse]
  | c :: cs =>
    if c.isWhitespace then
      if cur = [] then fieldsAux [] cs else cur.reverse :: fieldsAux [] cs
    else fieldsAux (c :: cur) cs

/-- Go `strings.Fields`: maximal runs of non-whitespace characters. -/
def fields (s : String) : List String := (fieldsAux [] s.data).map String.mk

/-- Go `strings.Join` with a separator. -/
def joinWith (sep : String) : List String → String
  | [] => ""
  | [x] => x
  | x :: y :: xs => x ++ sep ++ joinWith sep (y :: xs)

/-- Accumulator pass of `strings.Split` for a one-character separator. -/
def splitOnCharAux (sep : Char) (cur : List Char) :
    List Char → List (List Char)
  | [] => [cur.reverse]
  | c :: cs =>
    if c = sep then cur.reverse :: splitOnCharAux sep [] cs
    else splitOnCharAux sep (c :: cur) cs

/-- Go `strings.Split` with a one-character separator (empties kept). -/
def splitOnChar (sep : Char) (s : String) : List String :=
  (splitOnCharAux sep [] s.data).map String.mk

/-- Equality on the `citext` column type: PostgreSQL compares `citext`
values case-insensitively (by lowercasing both sides). -/
def citextEq (a b : String) : Bool := toLowerStr a == toLowerStr b

/-- Row of the `repo` table (Go struct `dbRepo`). The `uri` column is
`citext`, so SQL comparisons on it are case-insensitive. Timestamps are
abstracted as naturals; `updated_at` and `pushed_at` are nullable. -/
structure DbRepo where
  uri : String
  origin : String
  name : String
  description : String
  vcs : String
  httpCloneURL : String
  sshCloneURL : String
  homepageURL : String
  defaultBranch : String
  language : String
  blocked : Bool
  deprecated : Bool
  fork : Bool
  mirror : Bool
  private_ : Bool
  createdAt : Nat
  updatedAt : Option Nat
  pushedAt : Option Nat
deriving DecidableEq, Repr

/-- Row with every string empty, every flag false and no timestamps;
used to write concrete rows by updating the fields of interest. -/
def emptyDbRepo : DbRepo :=
  { uri := "", origin := "", name := "", description := "", vcs := ""
    httpCloneURL := "", sshCloneURL := "", homepageURL := ""
    defaultBranch := "", language := ""
    blocked := false, deprecated := false, fork := false, mirror := false
    private_ := false
    createdAt := 0, updatedAt := none, pushedAt := none }

/-- Domain repository record (`sourcegraph.Repo`); all three timestamp
fields are optional pointers in the source. -/
structure Repo where
  uri : String
  origin : String
  name : String
  description : String
  vcs : String
  httpCloneURL : String
  sshCloneURL : String
  homepageURL : String
  defaultBranch : String
  language : String
  blocked : Bool
  deprecated : Bool
  fork : Bool
  mirror : Bool
  private_ : Bool
  createdAt : Option Nat
  updatedAt : Option Nat
  pushedAt : Option Nat
deriving DecidableEq, Repr

/-- Record with every string empty, every flag false and no timestamps. -/
def emptyRepo : Repo :=
  { uri := "", origin := "", name := "", description := "", vcs := ""
    httpCloneURL := "", sshCloneURL := "", homepageURL := ""
    defaultBranch := "", language := ""
    blocked := false, deprecated := false, fork := false, mirror := false
    private_ := false
    createdAt := none, updatedAt := none, pushedAt := none }

/-- Conversion `dbRepo.fromRepo`: the non-nullable `created_at` column
keeps Go's zero value when the record carries no creation time. -/
def DbRepo.fromRepo (r2 : Repo) : DbRepo :=
  { uri := r2.uri, origin := r2.origin, name := r2.name
    description := r2.description, vcs := r2.vcs
    httpCloneURL := r2.httpCloneURL, sshCloneURL := r2.sshCloneURL
    homepageURL := r2.homepageURL, defaultBranch := r2.defaultBranch
    language := r2.language
    blocked := r2.blocked, deprecated := r2.deprecated, fork := r2.fork
    mirror := r2.mirror, private_ := r2.private_
    createdAt := r2.createdAt.getD 0
    updatedAt := r2.updatedAt, pushedAt := r2.pushedAt }

/-- Listing options (`sourcegraph.RepoListOptions`) as consumed by
`listSQL` and `List`. -/
structure RepoListOptions where
  query : String
  uris : List String
  name : String
  type_ : String
  noFork : Bool
  owner : String
  sort : String
  direction : String
  /-- Modelled from the spec: the page-size value after defaulting
  (`opt.PerPageOrDefault()` lives in the external options type; the spec
  only requires that a page-size clause is always appended, using the
  option default when unset). -/
  perPage : Nat
  /-- Modelled from the spec: the row offset after defaulting
  (`opt.Offset()` lives in the external options type). -/
  offset : Nat
deriving DecidableEq, Repr

/-- Options value with every filter empty and a large page. -/
def defaultOpts : RepoListOptions :=
  { query := "", uris := [], name := "", type_ := "", noFork := false
    owner := "", sort := "", direction := "", perPage := 10, offset := 0 }

/-- Conjuncts of the WHERE clause built by `listSQL`. Each constructor
stands for one condition string together with its bound parameters:
`notBlocked` for `(NOT blocked)`, `notFork` for `(NOT fork)`,
`uriIn us` for `uri IN ($..)` with one bind variable per element,
`nameEq n` for `lower(name)=$..` with `n` already lowercased,
`queryGroup q` for the four-way OR group over the probe `q`,
`isPrivate` for `private` and `notPrivate` for `NOT private`. -/
inductive Cond where
  | notBlocked
  | notFork
  | uriIn (uris : List String)
  | nameEq (lowerName : String)
  | queryGroup (uriQuery : String)
  | isPrivate
  | notPrivate
deriving DecidableEq, Repr

/-- Failures of the query builder: `invalidArgument` for the
`grpc.Errorf(codes.InvalidArgument, ...)` returns and `emptyResult` for
the sentinel `errOptionsSpecifyEmptyResult`. -/
inductive ListErr where
  | invalidArgument (msg : String)
  | emptyResult
deriving DecidableEq, Repr

/-- Structured result of `listSQL`: the WHERE conjuncts, the optional
exact-name tie-break parameter of the ORDER BY, and the validated sort
column and direction (rendered as `ORDER BY (lower(name) = $..) DESC,
col dir NULLS LAST`). -/
structure ListQuery where
  conds : List Cond
  tieBreak : Option String
  sortCol : String
  direction : String
deriving DecidableEq, Repr

/-- Query terms of the options (`strings.Fields(opt.Query)`). -/
def queryTermsOf (opt : RepoListOptions) : List String := fields opt.query

/-- Path-shaped probe: terms joined with `/`, lowercased. -/
def uriQueryOf (opt : RepoListOptions) : String :=
  toLowerStr (joinWith "/" (queryTermsOf opt))

/-- URI list actually bound by the builder: a single element containing
a comma is split on commas (workaround for go-sourcegraph issue 30). -/
def effectiveURIs (uris : List String) : List String :=
  if uris.length = 1 ∧ (uris.headD "").data.contains ',' then
    splitOnChar ',' (uris.headD "")
  else uris

/-- Go `path.Base`: the last element of the path after stripping
trailing slashes; "." for the empty string, "/" if only slashes. -/
def pathBase (p : String) : String :=
  if p = "" then "."
  else
    let rev := (p.data.reverse.dropWhile fun c => c = '/')
    let baseRev := rev.takeWhile fun c => c ≠ '/'
    if baseRev = [] then "/" else String.mk baseRev.reverse

/-- Mapping from a sort key to its column (Go map `sortKeyToCol`);
`none` means the key is not recognized. -/
def sortKeyToCol (s : String) : Option String :=
  if s = "uri" then some "repo.uri"
  else if s = "path" then some "repo.uri"
  else if s = "name" then some "repo.name"
  else if s = "created" then some "repo.created_at"
  else if s = "updated" then some "repo.updated_at"
  else if s = "pushed" then some "repo.pushed_at"
  else none

/-- Visibility switch on `opt.Type`: `private` and `public` append a
conjunct, empty and `all` append nothing, anything else is an
InvalidArgument failure (`"invalid state"`). -/
def visibilityResult (t : String) (conds : List Cond) :
    Except ListErr (List Cond) :=
  if t = "private" then .ok (conds ++ [Cond.isPrivate])
  else if t = "public" then .ok (conds ++ [Cond.notPrivate])
  else if t = "" ∨ t = "all" then .ok conds
  else .error (ListErr.invalidArgument "invalid state")

/-- Query builder `listSQL`: produces the structured WHERE/ORDER BY
query, or a failure, following the source's control flow — conjuncts
accumulated in order, then the visibility switch, then the owner
sentinel, then sort-key and direction validation. -/
def listSQL (opt : RepoListOptions) : Except ListErr ListQuery :=
  let queryTerms := queryTermsOf opt
  let uriQuery := uriQueryOf opt
  let conds : List Cond :=
    [Cond.notBlocked]
    ++ (if opt.noFork then [Cond.notFork] else [])
    ++ (if opt.uris.length > 0 then [Cond.uriIn (effectiveURIs opt.uris)] else [])
    ++ (if opt.name ≠ "" then [Cond.nameEq (toLowerStr opt.name)] else [])
    ++ (if queryTerms.length ≥ 1 then [Cond.queryGroup uriQuery] else [])
  match visibilityResult opt.type_ conds with
  | .error e => .error e
  | .ok conds =>
    if opt.owner ≠ "" then .error ListErr.emptyResult
    else
      let tieBreak : Option String :=
        if uriQuery ≠ "" then some (toLowerStr (pathBase uriQuery)) else none
      let sort := if opt.sort = "" then "uri" else opt.sort
      match sortKeyToCol sort with
      | none => .error (ListErr.invalidArgument ("invalid sort: " ++ sort))
      | some sortCol =>
        let direction := if opt.direction = "" then "asc" else opt.direction
        if direction ≠ "asc" ∧ direction ≠ "desc" then
          .error (ListErr.invalidArgument ("invalid direction: " ++ direction))
        else
          .ok { conds := conds, tieBreak := tieBreak
                sortCol := sortCol, direction := direction }

/-- Truth of one WHERE conjunct on a row, following the SQL fragment it
stands for. `uri` is `citext`, so `uri IN (..)` compares
case-insensitively; the LIKE conditions lowercase explicitly in SQL. -/
def condEval (r : DbRepo) : Cond → Bool
  | .notBlocked => !r.blocked
  | .notFork => !r.fork
  | .uriIn us => us.any fun u => citextEq r.uri u
  | .nameEq n => toLowerStr r.name == n
  | .queryGroup q =>
    likeStr (toLowerStr r.uri) ("/" ++ q ++ "%")
    || likeStr (toLowerStr r.uri) (q ++ "%/%")
    || likeStr (toLowerStr r.name) (q ++ "%")
    || (toLowerStr r.uri == q)
  | .isPrivate => r.private_
  | .notPrivate => !r.private_

/-- Truth of the whole WHERE clause: the conjunction of the conjuncts
(the builder joins them with AND; an empty list renders as `true`). -/
def whereEval (r : DbRepo) (conds : List Cond) : Bool :=
  conds.all (condEval r)

/-- Value of an ORDER BY column on a row: a string, a timestamp, or SQL
NULL. Ordering on the `citext` column `repo.uri` is case-insensitive,
so its value is taken lowercased. -/
inductive ColVal where
  | s (v : String)
  | t (v : Nat)
  | null
deriving DecidableEq, Repr

/-- Column value of a row for each sort column `listSQL` can emit. -/
def colVal (col : String) (r : DbRepo) : ColVal :=
  if col = "repo.uri" then .s (toLowerStr r.uri)
  else if col = "repo.name" then .s r.name
  else if col = "repo.created_at" then .t r.createdAt
  else if col = "repo.updated_at" then
    match r.updatedAt with | some v => .t v | none => .null
  else if col = "repo.pushed_at" then
    match r.pushedAt with | some v => .t v | none => .null
  else .null

/-- Boolean string order used for ORDER BY comparisons. -/
def strLE (x y : String) : Bool := !(decide (y < x))

/-- Comparison of two column values under a direction, with NULLS LAST
regardless of direction. -/
def colValLE (dir : String) : ColVal → ColVal → Bool
  | .null, .null => true
  | .null, _ => false
  | _, .null => true
  | .s x, .s y => if dir = "desc" then strLE y x else strLE x y
  | .t x, .t y => if dir = "desc" then decide (y ≤ x) else decide (x ≤ y)
  | _, _ => true

/-- Row order denoted by the ORDER BY clause: the optional descending
exact-name tie-break first, then the sort column in the requested
direction with NULLS LAST. -/
def ordLE (q : ListQuery) (a b : DbRepo) : Bool :=
  match q.tieBreak with
  | some t =>
    let ta := toLowerStr a.name == t
    let tb := toLowerStr b.name == t
    if ta == tb then colValLE q.direction (colVal q.sortCol a) (colVal q.sortCol b)
    else ta
  | none => colValLE q.direction (colVal q.sortCol a) (colVal q.sortCol b)

/-- Insertion into a list sorted by `le`. -/
def insertLe {α : Type} (le : α → α → Bool) (x : α) : List α → List α
  | [] => [x]
  | y :: ys => if le x y then x :: y :: ys else y :: insertLe le x ys

/-- Insertion sort by `le` (a stable total sort, standing in for the
database's ORDER BY). -/
def sortByLe {α : Type} (le : α → α → Bool) : List α → List α
  | [] => []
  | x :: xs => insertLe le x (sortByLe le xs)

/-- Store operation `List` over a table state: builds the query, maps
the sentinel `errOptionsSpecifyEmptyResult` to an empty result with no
error, and otherwise returns the rows satisfying the WHERE clause, in
ORDER BY order, after LIMIT/OFFSET pagination. -/
def listRepos (db : List DbRepo) (opt : RepoListOptions) :
    Except ListErr (List DbRepo) :=
  match listSQL opt with
  | .error ListErr.emptyResult => .ok []
  | .error e => .error e
  | .ok q =>
    .ok ((((sortByLe (ordLE q) (db.filter fun r => whereEval r q.conds)).drop
      opt.offset).take opt.perPage))

/-- Failures of `Create`. -/
inductive CreateErr where
  | mirrorOnly
  | needsCloneURL
deriving DecidableEq, Repr

/-- Store operation `Create`: rejects non-mirror records, then records
without any clone URL, defaults the branch to `master`, and inserts the
converted row, returning the new table state and the stored row. -/
def create (db : List DbRepo) (newRepo : Repo) :
    Except CreateErr (List DbRepo × DbRepo) :=
  if !newRepo.mirror then .error CreateErr.mirrorOnly
  else if newRepo.httpCloneURL = "" ∧ newRepo.sshCloneURL = "" then
    .error CreateErr.needsCloneURL
  else
    let newRepo :=
      if newRepo.defaultBranch = "" then
        { newRepo with defaultBranch := "master" }
      else newRepo
    let r := DbRepo.fromRepo newRepo
    .ok (db ++ [r], r)

/-- Partial-update request (`store.RepoUpdate`): the target identifier
and the four independently optional fields. -/
structure RepoUpdate where
  repoURI : String
  description : String
  language : String
  updatedAt : Option Nat
  pushedAt : Option Nat
deriving DecidableEq, Repr

/-- Single-column UPDATE statements `Update` can issue, each carrying
the bound value and the target identifier. -/
inductive UpdateStmt where
  | setDescription (value : String) (uri : String)
  | setLanguage (value : String) (uri : String)
  | setUpdatedAt (value : Nat) (uri : String)
  | setPushedAt (value : Nat) (uri : String)
deriving DecidableEq, Repr

/-- Store operation `Update`: one statement per supplied field, in
source order; string fields count as supplied when non-empty and are
trimmed of surrounding whitespace before binding. -/
def update (op : RepoUpdate) : List UpdateStmt :=
  (if op.description ≠ "" then
    [UpdateStmt.setDescription (trimSpace op.description) op.repoURI] else [])
  ++ (if op.language ≠ "" then
    [UpdateStmt.setLanguage (trimSpace op.language) op.repoURI] else [])
  ++ (match op.updatedAt with
    | some t => [UpdateStmt.setUpdatedAt t op.repoURI]
    | none => [])
  ++ (match op.pushedAt with
    | some t => [UpdateStmt.setPushedAt t op.repoURI]
    | none => [])

/-- Effect of one UPDATE statement on one row: if the row's `citext`
identifier matches the bound one, exactly the named column is replaced. -/
def applyStmtRow (st : UpdateStmt) (r : DbRepo) : DbRepo :=
  match st with
  | .setDescription v uri =>
    if citextEq r.uri uri then { r with description := v } else r
  | .setLanguage v uri =>
    if citextEq r.uri uri then { r with language := v } else r
  | .setUpdatedAt v uri =>
    if citextEq r.uri uri then { r with updatedAt := some v } else r
  | .setPushedAt v uri =>
    if citextEq r.uri uri then { r with pushedAt := some v } else r

/-- Effect of one UPDATE statement on the table. -/
def applyStmt (db : List DbRepo) (st : UpdateStmt) : List DbRepo :=
  db.map (applyStmtRow st)

/-- Table state after an `Update` call: its statements applied in order. -/
def applyUpdate (db : List DbRepo) (op : RepoUpdate) : List DbRepo :=
  (update op).foldl applyStmt db

/-- Recognized visibility values (`""`, `all`, `public`, `private`). -/
def validVis (t : String) : Bool :=
  (t == "") || (t == "all") || (t == "public") || (t == "private")

/-- Recognized sort keys after defaulting the empty key to `uri`. -/
def validSort (s : String) : Bool :=
  (sortKeyToCol (if s = "" then "uri" else s)).isSome

/-- Recognized sort directions after defaulting the empty one to `asc`. -/
def validDir (d : String) : Bool :=
  ((if d = "" then "asc" else d) == "asc")
  || ((if d = "" then "asc" else d) == "desc")

/-- Conjuncts the visibility switch appends for a recognized value. -/
def visTail (t : String) : List Cond :=
  if t = "private" then [Cond.isPrivate]
  else if t = "public" then [Cond.notPrivate]
  else []

theorem visibilityResult_ok_of_valid (t : String) (c : List Cond)
    (hv : validVis t = true) :
    visibilityResult t c = .ok (c ++ visTail t) := by
  unfold visibilityResult visTail
  by_cases h1 : t = "private"
  · simp [h1]
  · by_cases h2 : t = "public"
    · simp [h1, h2]
    · by_cases h3 : t = "" ∨ t = "all"
      · simp [h1, h2, h3]
      · exfalso
        simp only [validVis, Bool.or_eq_true, beq_iff_eq] at hv
        rcases hv with ((hv | hv) | hv) | hv
        · exact h3 (Or.inl hv)
        · exact h3 (Or.inr hv)
        · exact h2 hv
        · exact h1 hv

theorem visibilityResult_error_of_invalid (t : String) (c : List Cond)
    (hv : validVis t = false) :
    visibilityResult t c = .error (ListErr.invalidArgument "invalid state") := by
  unfold visibilityResult
  simp only [validVis, Bool.or_eq_false_iff, beq_eq_false_iff_ne, ne_eq] at hv
  obtain ⟨⟨⟨h1, h2⟩, h3⟩, h4⟩ := hv
  rw [if_neg h4, if_neg h3, if_neg (by rintro (g | g) <;> [exact h1 g; exact h2 g])]

theorem listSQL_error_of_invalid_vis (opt : RepoListOptions)
    (hv : validVis opt.type_ = false) :
    listSQL opt = .error (ListErr.invalidArgument "invalid state") := by
  simp only [listSQL]
  rw [visibilityResult_error_of_invalid _ _ hv]

/-- Structural characterization of a successful `listSQL` build: the
conjunct list in source order headed by `NOT blocked`, the tie-break
parameter, and the validated sort column and direction. -/
theorem listSQL_ok_spec (opt : RepoListOptions) (q : ListQuery)
    (h : listSQL opt = .ok q) :
    q.conds =
      Cond.notBlocked ::
        ((if opt.noFork then [Cond.notFork] else [])
          ++ (if opt.uris.length > 0 then [Cond.uriIn (effectiveURIs opt.uris)] else [])
          ++ (if opt.name ≠ "" then [Cond.nameEq (toLowerStr opt.name)] else [])
          ++ (if (queryTermsOf opt).length ≥ 1 then [Cond.queryGroup (uriQueryOf opt)] else [])
          ++ visTail opt.type_)
    ∧ q.tieBreak =
        (if uriQueryOf opt ≠ "" then some (toLowerStr (pathBase (uriQueryOf opt))) else none)
    ∧ sortKeyToCol (if opt.sort = "" then "uri" else opt.sort) = some q.sortCol
    ∧ q.direction = (if opt.direction = "" then "asc" else opt.direction) := by
  simp only [listSQL] at h
  split at h
  · exact absurd h (by simp)
  · rename_i conds2 hv
    rcases hval : validVis opt.type_ with _ | _
    · rw [visibilityResult_error_of_invalid _ _ hval] at hv
      exact absurd hv (by simp)
    · rw [visibilityResult_ok_of_valid _ _ hval] at hv
      simp only [Except.ok.injEq] at hv
      subst hv
      split at h
      · exact absurd h (by simp)
      · split at h
        · exact absurd h (by simp)
        · rename_i sortCol hs
          split at h
          · rename_i hdir
            rw [if_neg (by simp)] at h
            simp only [Except.ok.injEq] at h
            subst h
            refine ⟨by simp, rfl, hs, by rw [if_pos hdir]⟩
          · rename_i hdir
            split at h
            · exact absurd h (by simp)
            · simp only [Except.ok.injEq] at h
              subst h
              refine ⟨by simp, rfl, hs, by rw [if_neg hdir]⟩

/-- Free-text OR-group as the spec words it (step 4): identifier starts
with slash-probe, identifier matches the probe%/% pattern lowercased,
name starts with probe, or identifier equals probe, all after
lowercasing. -/
def specFreeTextMatch (probe : String) (r : DbRepo) : Bool :=
  (("/" ++ probe).data.isPrefixOf (toLowerStr r.uri).data)
  || likeStr (toLowerStr r.uri) (probe ++ "%/%")
  || (probe.data.isPrefixOf (toLowerStr r.name).data)
  || (toLowerStr r.uri == probe)

theorem likeMatchAux_congr (fuel1 : Nat) :
    ∀ (fuel2 : Nat) (ps s : List Char),
      ps.length + s.length < fuel1 → ps.length + s.length < fuel2 →
      likeMatchAux fuel1 ps s = likeMatchAux fuel2 ps s := by
  induction fuel1 with
  | zero => intro fuel2 ps s h1 _; omega
  | succ f1 ih =>
    intro fuel2 ps s h1 h2
    cases fuel2 with
    | zero => omega
    | succ f2 =>
      cases ps with
      | nil => simp [likeMatchAux]
      | cons p ps =>
        cases s with
        | nil =>
          simp only [List.length_cons, List.length_nil] at h1 h2
          simp only [likeMatchAux]
          rw [ih f2 ps []
            (by simp only [List.length_nil]; omega)
            (by simp only [List.length_nil]; omega)]
        | cons c s2 =>
          simp only [List.length_cons] at h1 h2
          simp only [likeMatchAux]
          rw [ih f2 ps (c :: s2)
              (by simp only [List.length_cons]; omega)
              (by simp only [List.length_cons]; omega),
            ih f2 (p :: ps) s2
              (by simp only [List.length_cons]; omega)
              (by simp only [List.length_cons]; omega),
            ih f2 ps s2 (by omega) (by omega)]

theorem likeMatchAux_eq (fuel : Nat) (ps s : List Char)
    (h : ps.length + s.length < fuel) :
    likeMatchAux fuel ps s = likeMatch ps s :=
  likeMatchAux_congr fuel (ps.length + s.length + 1) ps s h (by omega)

theorem likeMatch_nil (s : List Char) : likeMatch [] s = s.isEmpty := by
  simp [likeMatch, likeMatchAux]

theorem likeMatch_cons_nil (p : Char) (ps : List Char) :
    likeMatch (p :: ps) [] = (if p = '%' then likeMatch ps [] else false) := by
  have step : likeMatch (p :: ps) [] =
      (if p = '%' then
        likeMatchAux ((p :: ps).length + ([] : List Char).length) ps []
      else false) := rfl
  rw [step, likeMatchAux_eq ((p :: ps).length + ([] : List Char).length) ps []
    (by simp only [List.length_cons, List.length_nil]; omega)]

theorem likeMatch_cons_cons (p : Char) (ps : List Char) (c : Char)
    (s2 : List Char) :
    likeMatch (p :: ps) (c :: s2) =
      (if p = '%' then
        (likeMatch ps (c :: s2) || likeMatch (p :: ps) s2)
      else
        (if p = '_' then true else p == c) && likeMatch ps s2) := by
  have step : likeMatch (p :: ps) (c :: s2) =
      (if p = '%' then
        (likeMatchAux ((p :: ps).length + (c :: s2).length) ps (c :: s2)
          || likeMatchAux ((p :: ps).length + (c :: s2).length) (p :: ps) s2)
      else
        (if p = '_' then true else p == c)
          && likeMatchAux ((p :: ps).length + (c :: s2).length) ps s2) := rfl
  rw [step,
    likeMatchAux_eq ((p :: ps).length + (c :: s2).length) ps (c :: s2)
      (by simp only [List.length_cons]; omega),
    likeMatchAux_eq ((p :: ps).length + (c :: s2).length) (p :: ps) s2
      (by simp only [List.length_cons]; omega),
    likeMatchAux_eq ((p :: ps).length + (c :: s2).length) ps s2
      (by simp only [List.length_cons]; omega)]

theorem likeMatch_percent (s : List Char) : likeMatch ['%'] s = true := by
  induction s with
  | nil => rfl
  | cons c s ih => rw [likeMatch_cons_cons]; simp [likeMatch_nil, ih]

theorem likeMatch_append_percent (xs : List Char) (h1 : '%' ∉ xs)
    (h2 : '_' ∉ xs) (s : List Char) :
    likeMatch (xs ++ ['%']) s = xs.isPrefixOf s := by
  induction xs generalizing s with
  | nil => simp [likeMatch_percent, List.isPrefixOf]
  | cons x xs ih =>
    simp only [List.mem_cons, not_or] at h1 h2
    obtain ⟨hx1, hxs1⟩ := h1
    obtain ⟨hx2, hxs2⟩ := h2
    have hx1n : ¬(x = '%') := fun h => hx1 h.symm
    have hx2n : ¬(x = '_') := fun h => hx2 h.symm
    cases s with
    | nil =>
      rw [List.cons_append, likeMatch_cons_nil, if_neg hx1n]
      simp [List.isPrefixOf]
    | cons c s =>
      rw [List.cons_append, likeMatch_cons_cons, if_neg hx1n, if_neg hx2n,
        ih hxs1 hxs2 s]
      simp [List.isPrefixOf]

theorem likeStr_percent_suffix (s pre : String) (h1 : '%' ∉ pre.data)
    (h2 : '_' ∉ pre.data) :
    likeStr s (pre ++ "%") = pre.data.isPrefixOf s.data := by
  unfold likeStr
  rw [String.data_append]
  exact likeMatch_append_percent pre.data h1 h2 s.data

/-- Equivalence of the builder's OR-group semantics with the spec's
wording, for probes free of LIKE wildcard characters. -/
theorem condEval_queryGroup_spec (q : String) (r : DbRepo)
    (hp : '%' ∉ q.data) (hu : '_' ∉ q.data) :
    condEval r (Cond.queryGroup q) = specFreeTextMatch q r := by
  have h1 : '%' ∉ ("/" ++ q).data := by
    rw [String.data_append]
    intro hmem
    rcases List.mem_append.mp hmem with hm | hm
    · simp only [show ("/" : String).data = ['/'] from rfl,
        List.mem_singleton] at hm
      cases hm
    · exact hp hm
  have h2 : '_' ∉ ("/" ++ q).data := by
    rw [String.data_append]
    intro hmem
    rcases List.mem_append.mp hmem with hm | hm
    · simp only [show ("/" : String).data = ['/'] from rfl,
        List.mem_singleton] at hm
      cases hm
    · exact hu hm
  simp only [condEval, specFreeTextMatch]
  rw [likeStr_percent_suffix _ ("/" ++ q) h1 h2,
    likeStr_percent_suffix _ q hp hu]

/-- Record with identifier `example.com/foo/bar` (name `bar`). -/
def repoFooBar : DbRepo :=
  { emptyDbRepo with uri := "example.com/foo/bar", name := "bar" }

/-- Record with identifier `example.com/foobar` (name `foobar`). -/
def repoFoobar : DbRepo :=
  { emptyDbRepo with uri := "example.com/foobar", name := "foobar" }

/-- Listing options with free-text query `foo bar` only. -/
def optFooBar : RepoListOptions := { defaultOpts with query := "foo bar" }

/-- Record with identifier `acme/widgets` (name `widgets`). -/
def wRepo : DbRepo :=
  { emptyDbRepo with uri := "acme/widgets", name := "widgets" }

/-- Record with identifier `acme/widgets-extra` (name `widgets-extra`). -/
def weRepo : DbRepo :=
  { emptyDbRepo with uri := "acme/widgets-extra", name := "widgets-extra" }

/-- Listing options with free-text query `widgets` only. -/
def optWidgets : RepoListOptions := { defaultOpts with query := "widgets" }

theorem mem_insertLe {α : Type} (le : α → α → Bool) (x a : α) (l : List α) :
    a ∈ insertLe le x l ↔ a = x ∨ a ∈ l := by
  induction l with
  | nil => simp [insertLe]
  | cons y ys ih =>
    simp only [insertLe]
    split
    · simp [List.mem_cons]
    · simp only [List.mem_cons, ih]
      tauto

theorem mem_sortByLe {α : Type} (le : α → α → Bool) (a : α) (l : List α) :
    a ∈ sortByLe le l ↔ a ∈ l := by
  induction l with
  | nil => simp [sortByLe]
  | cons x xs ih => simp [sortByLe, mem_insertLe, ih]

theorem map_comp_eq {α β : Type} (F : α → β) (g : α → α)
    (h : ∀ a, F (g a) = F a) (l : List α) :
    (l.map g).map F = l.map F := by
  induction l with
  | nil => rfl
  | cons x xs ih => simp only [List.map_cons, h, ih]

theorem foldl_applyStmt_map {β : Type} (F : DbRepo → β)
    (stmts : List UpdateStmt)
    (h : ∀ st ∈ stmts, ∀ r, F (applyStmtRow st r) = F r) :
    ∀ db : List DbRepo, (stmts.foldl applyStmt db).map F = db.map F := by
  induction stmts with
  | nil => intro db; rfl
  | cons st rest ih =>
    intro db
    simp only [List.foldl_cons]
    rw [ih (fun s hs r => h s (List.mem_cons_of_mem _ hs) r)]
    exact map_comp_eq F _ (h st (List.mem_cons_self _ _)) db

theorem listRepos_ok_not_blocked (db : List DbRepo)
    (opt : RepoListOptions) (out : List DbRepo) (r : DbRepo)
    (hl : listRepos db opt = .ok out) (hr : r ∈ out) : r.blocked = false := by
  unfold listRepos at hl
  split at hl
  · simp only [Except.ok.injEq] at hl
    subst hl
    cases hr
  · exact absurd hl (by simp)
  · rename_i q hq
    simp only [Except.ok.injEq] at hl
    subst hl
    have h1 : r ∈ sortByLe (ordLE q) (db.filter fun x => whereEval x q.conds) :=
      List.drop_subset _ _ (List.take_subset _ _ hr)
    have h2 := (mem_sortByLe (ordLE q) r _).mp h1
    have h3 := (List.mem_filter.mp h2).2
    obtain ⟨hconds, _, _, _⟩ := listSQL_ok_spec opt q hq
    rw [hconds] at h3
    simp only [whereEval, List.all_cons, Bool.and_eq_true, condEval] at h3
    have hb := h3.1
    simp only [Bool.not_eq_true'] at hb
    exact hb

/-- C2: for every options value the query builder's predicate includes
the conjunct `NOT blocked`, and accordingly List never returns a record
with `blocked = true`, regardless of any combination of the other
options (query, identifiers, name, visibility, excludeForks, owner,
sort, pagination). -/
theorem spec_C2_blocked_never_listed :
    (∀ (opt : RepoListOptions) (q : ListQuery), listSQL opt = .ok q →
      Cond.notBlocked ∈ q.conds)
    ∧ (∀ (db : List DbRepo) (opt : RepoListOptions) (out : List DbRepo)
        (r : DbRepo), listRepos db opt = .ok out → r ∈ out →
        r.blocked = false) := by
  constructor
  · intro opt q h
    obtain ⟨hconds, _, _, _⟩ := listSQL_ok_spec opt q h
    rw [hconds]
    exact List.mem_cons_self _ _
  · exact fun db opt out r hl hr => listRepos_ok_not_blocked db opt out r hl hr

/-- Witness for C2 at a concrete build and a concrete listing. -/
theorem spec_C2_blocked_never_listed_witness :
    Cond.notBlocked ∈
      ({ conds := [Cond.notBlocked], tieBreak := none,
         sortCol := "repo.uri", direction := "asc" } : ListQuery).conds
    ∧ emptyDbRepo.blocked = false :=
  ⟨spec_C2_blocked_never_listed.1 defaultOpts
    { conds := [Cond.notBlocked], tieBreak := none,
      sortCol := "repo.uri", direction := "asc" } (by decide),
   spec_C2_blocked_never_listed.2 [emptyDbRepo] defaultOpts [emptyDbRepo]
     emptyDbRepo (by decide) (by decide)⟩

/-- C1 counterexample: with exactly the two records of the claim stored
(identifiers `example.com/foo/bar` and `example.com/foobar`, names
`bar` and `foobar`), List with query `foo bar` returns neither record —
refuting the claim that the first one is returned. All three LIKE
patterns of the OR-group are anchored at the start of the value, so the
probe `foo/bar` does not match an identifier beginning with
`example.com/`. -/
theorem spec_C1_counterexample :
    listRepos [repoFooBar, repoFoobar] optFooBar = .ok []
    ∧ repoFooBar.uri = "example.com/foo/bar" :=
  ⟨by decide, rfl⟩

/-- C1 (amended): for query `foo bar` the builder produces exactly the
baseline conjunct plus the OR-group over the probe `foo/bar`; a row
passes the WHERE clause iff it is not blocked and matches the OR-group
of step 4 (which agrees with the spec's wording of the four
disjuncts); and neither the record `example.com/foo/bar` (name `bar`)
nor `example.com/foobar` (name `foobar`) matches, because the
`probe%/%` pattern is anchored at the start of the identifier. -/
theorem spec_C1_freeText :
    ∀ q : ListQuery, listSQL optFooBar = .ok q →
      q.conds = [Cond.notBlocked, Cond.queryGroup "foo/bar"]
      ∧ (∀ r : DbRepo, whereEval r q.conds
          = (!r.blocked && specFreeTextMatch "foo/bar" r))
      ∧ whereEval repoFooBar q.conds = false
      ∧ whereEval repoFoobar q.conds = false := by
  intro q h
  have hq : listSQL optFooBar = .ok
      { conds := [Cond.notBlocked, Cond.queryGroup "foo/bar"],
        tieBreak := some "bar", sortCol := "repo.uri",
        direction := "asc" } := by decide
  rw [hq] at h
  simp only [Except.ok.injEq] at h
  subst h
  refine ⟨rfl, ?_, by decide, by decide⟩
  intro r
  simp only [whereEval, List.all_cons, List.all_nil, Bool.and_true]
  rw [condEval_queryGroup_spec "foo/bar" r (by decide) (by decide)]
  rfl

/-- Witness for C1 (amended) at the concrete query build. -/
theorem spec_C1_freeText_witness :
    whereEval repoFooBar [Cond.notBlocked, Cond.queryGroup "foo/bar"] = false
    ∧ whereEval repoFoobar [Cond.notBlocked, Cond.queryGroup "foo/bar"]
        = false := by
  have h := spec_C1_freeText
    { conds := [Cond.notBlocked, Cond.queryGroup "foo/bar"],
      tieBreak := some "bar", sortCol := "repo.uri", direction := "asc" }
    (by decide)
  exact ⟨h.2.2.1, h.2.2.2⟩

theorem listSQL_ok_of_valid (opt : RepoListOptions)
    (hv : validVis opt.type_ = true) (ho : opt.owner = "")
    (hs : validSort opt.sort = true) (hd : validDir opt.direction = true) :
    ∃ q, listSQL opt = .ok q := by
  obtain ⟨col, hcol⟩ := Option.isSome_iff_exists.mp hs
  have hdir : ¬((if opt.direction = "" then "asc" else opt.direction) ≠ "asc"
      ∧ (if opt.direction = "" then "asc" else opt.direction) ≠ "desc") := by
    simp only [validDir, Bool.or_eq_true, beq_iff_eq] at hd
    rcases hd with hd | hd
    · intro hcon; exact hcon.1 hd
    · intro hcon; exact hcon.2 hd
  rcases hres : listSQL opt with e | q
  · exfalso
    simp only [listSQL, visibilityResult_ok_of_valid _ _ hv] at hres
    rw [if_neg (by simp [ho])] at hres
    split at hres
    · rename_i hnone
      rw [hcol] at hnone
      cases hnone
    · rename_i sortCol hsome
      rw [if_neg hdir] at hres
      exact absurd hres (by simp)
  · exact ⟨q, rfl⟩

/-- C3 counterexample: with a non-empty owner and the unsupported sort
key `bogus`, the builder yields the empty-result sentinel instead of an
InvalidArgument error, and List returns an empty result with no error —
refuting the only-if direction of the claim. -/
theorem spec_C3_counterexample :
    listSQL { defaultOpts with owner := "x", sort := "bogus" }
        = .error ListErr.emptyResult
    ∧ listRepos [] { defaultOpts with owner := "x", sort := "bogus" }
        = .ok [] :=
  ⟨by decide, by decide⟩

/-- C3 (amended): the build fails with InvalidArgument iff the
visibility value is unsupported (not one of the empty string, `all`,
`public`, `private`), or the owner filter is empty and the sort key or
sort direction is unsupported. When the owner filter is non-empty and
the visibility is recognized, the empty-result sentinel preempts sort
and direction validation. -/
theorem spec_C3_invalidArgument_iff (opt : RepoListOptions) :
    (∃ m, listSQL opt = .error (ListErr.invalidArgument m)) ↔
      (validVis opt.type_ = false
        ∨ (opt.owner = ""
            ∧ (validSort opt.sort = false
              ∨ validDir opt.direction = false))) := by
  constructor
  · rintro ⟨m, h⟩
    rcases hv : validVis opt.type_ with _ | _
    · exact Or.inl rfl
    · right
      simp only [listSQL, visibilityResult_ok_of_valid _ _ hv] at h
      split at h
      · exact absurd h (by simp)
      · rename_i ho
        push_neg at ho
        refine ⟨ho, ?_⟩
        split at h
        · rename_i hnone
          left
          simp [validSort, hnone]
        · rename_i col hcol
          split at h
          · rw [if_neg (by simp)] at h
            exact absurd h (by simp)
          · rename_i hne
            split at h
            · rename_i hbad
              right
              simp only [validDir, if_neg hne, Bool.or_eq_false_iff,
                beq_eq_false_iff_ne, ne_eq]
              exact hbad
            · exact absurd h (by simp)
  · rintro (hv | ⟨ho, hrest⟩)
    · exact ⟨"invalid state", listSQL_error_of_invalid_vis opt hv⟩
    · rcases hval : validVis opt.type_ with _ | _
      · exact ⟨"invalid state", listSQL_error_of_invalid_vis opt hval⟩
      · rcases hsv : validSort opt.sort with _ | _
        · refine ⟨"invalid sort: " ++ (if opt.sort = "" then "uri"
            else opt.sort), ?_⟩
          have hnone : sortKeyToCol (if opt.sort = "" then "uri"
              else opt.sort) = none := by
            rcases hopt : sortKeyToCol (if opt.sort = "" then "uri"
                else opt.sort) with _ | c
            · rfl
            · exfalso
              rw [validSort, hopt] at hsv
              exact absurd hsv (by simp)
          simp only [listSQL, visibilityResult_ok_of_valid _ _ hval]
          rw [if_neg (by simp [ho]), hnone]
        · rcases hrest with hsort | hdir
          · rw [hsv] at hsort
            cases hsort
          · obtain ⟨col, hcol⟩ := Option.isSome_iff_exists.mp hsv
            refine ⟨"invalid direction: " ++ (if opt.direction = "" then "asc"
              else opt.direction), ?_⟩
            have hd2 : ((if opt.direction = "" then "asc" else opt.direction)
                ≠ "asc")
                ∧ ((if opt.direction = "" then "asc" else opt.direction)
                  ≠ "desc") := by
              simp only [validDir, Bool.or_eq_false_iff,
                beq_eq_false_iff_ne, ne_eq] at hdir
              exact hdir
            simp only [listSQL, visibilityResult_ok_of_valid _ _ hval]
            rw [if_neg (by simp [ho])]
            split
            · rename_i hnone
              rw [hcol] at hnone
              cases hnone
            · rename_i sortCol hsome
              rw [if_pos hd2]

/-- Witness for C3 (amended) applying the characterization at a
concrete unsupported visibility value. -/
theorem spec_C3_invalidArgument_iff_witness :
    ∃ m, listSQL { defaultOpts with type_ := "bogus" }
      = .error (ListErr.invalidArgument m) :=
  (spec_C3_invalidArgument_iff { defaultOpts with type_ := "bogus" }).mpr
    (Or.inl (by decide))

/-- C4 counterexample: options with a non-empty owner and an
unsupported visibility value make List fail with InvalidArgument — not
return an empty result with no error — because the visibility switch
runs before the owner sentinel. -/
theorem spec_C4_counterexample :
    listRepos [] { defaultOpts with owner := "x", type_ := "bogus" }
      = .error (ListErr.invalidArgument "invalid state") := by decide

/-- C4 (amended): whenever the owner filter is non-empty and the
visibility value is recognized, List returns an empty result with no
error, whatever the other option values are (the owner condition is the
recognized empty-result sentinel, not an error). -/
theorem spec_C4_owner_empty_result (db : List DbRepo)
    (opt : RepoListOptions) (ho : opt.owner ≠ "")
    (hv : validVis opt.type_ = true) :
    listRepos db opt = .ok [] := by
  have hsql : listSQL opt = .error ListErr.emptyResult := by
    simp only [listSQL, visibilityResult_ok_of_valid _ _ hv]
    rw [if_pos ho]
  unfold listRepos
  rw [hsql]

/-- Witness for C4 (amended) at a concrete owner-scoped listing. -/
theorem spec_C4_owner_empty_result_witness :
    listRepos [emptyDbRepo] { defaultOpts with owner := "alice" }
      = .ok [] :=
  spec_C4_owner_empty_result [emptyDbRepo]
    { defaultOpts with owner := "alice" } (by decide) (by decide)

/-- C5 counterexample: a single supplied identifier containing a comma
is split on commas, so the bound parameters are `a` and `b` rather than
the element `a,b` as supplied — refuting that no element is altered,
split, or dropped. -/
theorem spec_C5_counterexample :
    listSQL { defaultOpts with uris := ["a,b"] }
        = .ok { conds := [Cond.notBlocked, Cond.uriIn ["a", "b"]],
                tieBreak := none, sortCol := "repo.uri",
                direction := "asc" }
    ∧ Cond.uriIn ["a,b"] ∉ [Cond.notBlocked, Cond.uriIn ["a", "b"]] :=
  ⟨by decide, by decide⟩

/-- C5 (amended): for a non-empty identifiers list the builder adds the
conjunct restricting rows to identifiers in the bound set, with each
element of the effective list bound as one parameter; the effective
list is the caller's list unchanged, except that a single supplied
identifier containing a comma is first split on commas (workaround for
go-sourcegraph issue 30). Matching on the `uri` column itself is the
database's `citext` (case-insensitive) comparison. -/
theorem spec_C5_uri_filter (opt : RepoListOptions) (q : ListQuery)
    (h : listSQL opt = .ok q) (hne : opt.uris ≠ []) :
    Cond.uriIn (effectiveURIs opt.uris) ∈ q.conds
    ∧ (¬(opt.uris.length = 1
          ∧ (opt.uris.headD "").data.contains ',' = true) →
        effectiveURIs opt.uris = opt.uris) := by
  obtain ⟨hconds, _, _, _⟩ := listSQL_ok_spec opt q h
  constructor
  · rw [hconds]
    have hlen : opt.uris.length > 0 := List.length_pos.mpr hne
    simp [hlen, List.mem_append]
  · intro hno
    unfold effectiveURIs
    rw [if_neg hno]

/-- Witness for C5 (amended) at a concrete two-element identifier
list. -/
theorem spec_C5_uri_filter_witness :
    Cond.uriIn (effectiveURIs ["x", "y"])
      ∈ [Cond.notBlocked, Cond.uriIn ["x", "y"]]
    ∧ effectiveURIs ["x", "y"] = ["x", "y"] := by
  have h := spec_C5_uri_filter { defaultOpts with uris := ["x", "y"] }
    { conds := [Cond.notBlocked, Cond.uriIn ["x", "y"]], tieBreak := none,
      sortCol := "repo.uri", direction := "asc" } (by decide) (by decide)
  exact ⟨h.1, h.2 (by decide)⟩

/-- C6: whenever the query probe is non-empty, the produced ORDER BY
carries the descending exact-name tie-break (lowercased name equal to
the final path segment of the probe) ahead of the validated sort column
and direction with NULLS LAST (the `ordLE` order consults the
tie-break first); and with exactly the records `acme/widgets` and
`acme/widgets-extra` stored, List(query=`widgets`) returns both with
`acme/widgets` ordered first. -/
theorem spec_C6_tieBreak :
    (∀ (opt : RepoListOptions) (q : ListQuery), listSQL opt = .ok q →
      uriQueryOf opt ≠ "" →
      q.tieBreak = some (toLowerStr (pathBase (uriQueryOf opt))))
    ∧ listRepos [weRepo, wRepo] optWidgets = .ok [wRepo, weRepo] := by
  constructor
  · intro opt q h hne
    obtain ⟨_, htb, _, _⟩ := listSQL_ok_spec opt q h
    rw [htb, if_pos hne]
  · decide

/-- Witness for C6 applying the tie-break characterization at the
concrete widgets query. -/
theorem spec_C6_tieBreak_witness :
    ({ conds := [Cond.notBlocked, Cond.queryGroup "widgets"],
       tieBreak := some "widgets", sortCol := "repo.uri",
       direction := "asc" } : ListQuery).tieBreak
        = some (toLowerStr (pathBase (uriQueryOf optWidgets)))
    ∧ listRepos [weRepo, wRepo] optWidgets = .ok [wRepo, weRepo] :=
  ⟨spec_C6_tieBreak.1 optWidgets
    { conds := [Cond.notBlocked, Cond.queryGroup "widgets"],
      tieBreak := some "widgets", sortCol := "repo.uri",
      direction := "asc" } (by decide) (by decide),
   spec_C6_tieBreak.2⟩

/-- C7: Create with a non-mirror record fails with MirrorOnly and
leaves the table unchanged (no row is produced), regardless of every
other field value; the mirror check runs before the clone-URL check. -/
theorem spec_C7_mirror_only (db : List DbRepo) (r : Repo)
    (h : r.mirror = false) :
    create db r = .error CreateErr.mirrorOnly := by
  unfold create
  rw [h]
  rfl

/-- Witness for C7 at a record that also has both clone URLs empty, so
a clone-URL-first order would have produced NeedsCloneURL instead. -/
theorem spec_C7_mirror_only_witness :
    create [] emptyRepo = .error CreateErr.mirrorOnly :=
  spec_C7_mirror_only [] emptyRepo rfl

/-- C8: an Update supplying only the description (language empty, no
timestamps) issues exactly one statement, which sets the description
column to the trimmed value for the given identifier; applying it
leaves language, updatedAt and pushedAt of every row unchanged; and an
Update supplying no field issues no statements. -/
theorem spec_C8_description_only :
    (∀ op : RepoUpdate, op.description ≠ "" → op.language = "" →
      op.updatedAt = none → op.pushedAt = none →
      update op
          = [UpdateStmt.setDescription (trimSpace op.description) op.repoURI]
      ∧ ∀ db : List DbRepo,
          (applyUpdate db op).map DbRepo.language = db.map DbRepo.language
          ∧ (applyUpdate db op).map DbRepo.updatedAt
            = db.map DbRepo.updatedAt
          ∧ (applyUpdate db op).map DbRepo.pushedAt
            = db.map DbRepo.pushedAt)
    ∧ (∀ op : RepoUpdate, op.description = "" → op.language = "" →
        op.updatedAt = none → op.pushedAt = none → update op = []) := by
  constructor
  · intro op h1 h2 h3 h4
    have hupd : update op
        = [UpdateStmt.setDescription (trimSpace op.description) op.repoURI] := by
      simp [update, h1, h2, h3, h4]
    refine ⟨hupd, ?_⟩
    intro db
    unfold applyUpdate
    rw [hupd]
    simp only [List.foldl_cons, List.foldl_nil, applyStmt]
    refine ⟨map_comp_eq _ _ ?_ db, map_comp_eq _ _ ?_ db,
      map_comp_eq _ _ ?_ db⟩ <;>
      · intro a
        simp only [applyStmtRow]
        split <;> rfl
  · intro op h1 h2 h3 h4
    simp [update, h1, h2, h3, h4]

/-- Witness for C8 at a concrete one-field and a concrete empty
update. -/
theorem spec_C8_description_only_witness :
    update { repoURI := "r", description := " d ", language := "",
             updatedAt := none, pushedAt := none }
      = [UpdateStmt.setDescription "d" "r"]
    ∧ update { repoURI := "r", description := "", language := "",
               updatedAt := none, pushedAt := none } = [] := by
  refine ⟨?_, spec_C8_description_only.2
    { repoURI := "r", description := "", language := "",
      updatedAt := none, pushedAt := none } rfl rfl rfl rfl⟩
  have h := (spec_C8_description_only.1
    { repoURI := "r", description := " d ", language := "",
      updatedAt := none, pushedAt := none } (by decide) rfl rfl rfl).1
  rw [h]
  decide

/-- C9: an empty-string description or language counts as not supplied,
so applying such an Update leaves the stored description (resp.
language) of every row unchanged — the field can never be cleared by
passing the empty string; a whitespace-only value counts as supplied
and, after trimming, the issued statement stores the empty string. -/
theorem spec_C9_empty_vs_whitespace :
    (∀ (op : RepoUpdate) (db : List DbRepo), op.description = "" →
        (applyUpdate db op).map DbRepo.description
          = db.map DbRepo.description)
    ∧ (∀ (op : RepoUpdate) (db : List DbRepo), op.language = "" →
        (applyUpdate db op).map DbRepo.language = db.map DbRepo.language)
    ∧ (∀ op : RepoUpdate, op.description ≠ "" →
        trimSpace op.description = "" →
        UpdateStmt.setDescription "" op.repoURI ∈ update op) := by
  refine ⟨?_, ?_, ?_⟩
  · intro op db h1
    unfold applyUpdate
    apply foldl_applyStmt_map
    intro st hst r
    cases st with
    | setDescription v u =>
      exfalso
      by_cases hl : op.language = "" <;>
        rcases hu : op.updatedAt with _ | t <;>
        rcases hp : op.pushedAt with _ | t2 <;>
        simp [update, h1, hl, hu, hp] at hst
    | setLanguage v u =>
      simp only [applyStmtRow]
      split <;> rfl
    | setUpdatedAt v u =>
      simp only [applyStmtRow]
      split <;> rfl
    | setPushedAt v u =>
      simp only [applyStmtRow]
      split <;> rfl
  · intro op db h1
    unfold applyUpdate
    apply foldl_applyStmt_map
    intro st hst r
    cases st with
    | setLanguage v u =>
      exfalso
      by_cases hd : op.description = "" <;>
        rcases hu : op.updatedAt with _ | t <;>
        rcases hp : op.pushedAt with _ | t2 <;>
        simp [update, h1, hd, hu, hp] at hst
    | setDescription v u =>
      simp only [applyStmtRow]
      split <;> rfl
    | setUpdatedAt v u =>
      simp only [applyStmtRow]
      split <;> rfl
    | setPushedAt v u =>
      simp only [applyStmtRow]
      split <;> rfl
  · intro op h1 h2
    unfold update
    rw [if_pos h1, h2]
    simp

/-- Witness for C9 at a concrete empty-string update and a concrete
whitespace-only update. -/
theorem spec_C9_empty_vs_whitespace_witness :
    (applyUpdate [emptyDbRepo]
        { repoURI := "", description := "", language := "go",
          updatedAt := none, pushedAt := none }).map DbRepo.description
      = [emptyDbRepo].map DbRepo.description
    ∧ UpdateStmt.setDescription "" "r" ∈ update
        { repoURI := "r", description := "   ", language := "",
          updatedAt := none, pushedAt := none } :=
  ⟨spec_C9_empty_vs_whitespace.1
    { repoURI := "", description := "", language := "go",
      updatedAt := none, pushedAt := none } [emptyDbRepo] rfl,
   spec_C9_empty_vs_whitespace.2.2
    { repoURI := "r", description := "   ", language := "",
      updatedAt := none, pushedAt := none } (by decide) (by decide)⟩

/-- C10: when the sort key and direction options are empty, a
successful build sorts by the identifier column `repo.uri` ascending
(rendered with NULLS LAST); and empty ordering options never cause a
validation failure — with a recognized visibility and no owner filter
the build succeeds. -/
theorem spec_C10_sort_defaults :
    (∀ (opt : RepoListOptions) (q : ListQuery), opt.sort = "" →
      opt.direction = "" → listSQL opt = .ok q →
      q.sortCol = "repo.uri" ∧ q.direction = "asc")
    ∧ (∀ opt : RepoListOptions, opt.sort = "" → opt.direction = "" →
        opt.owner = "" → validVis opt.type_ = true →
        ∃ q, listSQL opt = .ok q) := by
  constructor
  · intro opt q hs hd h
    obtain ⟨_, _, hcol, hdir⟩ := listSQL_ok_spec opt q h
    constructor
    · rw [hs, if_pos rfl] at hcol
      have h2 : some ("repo.uri" : String) = some q.sortCol :=
        (show sortKeyToCol "uri" = some "repo.uri" from rfl).symm.trans hcol
      exact (Option.some.inj h2).symm
    · rw [hd, if_pos rfl] at hdir
      exact hdir
  · intro opt hs hd ho hv
    exact listSQL_ok_of_valid opt hv ho (by rw [hs]; decide)
      (by rw [hd]; decide)

/-- Witness for C10 at the all-defaults options value. -/
theorem spec_C10_sort_defaults_witness :
    (({ conds := [Cond.notBlocked], tieBreak := none, sortCol := "repo.uri",
        direction := "asc" } : ListQuery).sortCol = "repo.uri"
      ∧ ({ conds := [Cond.notBlocked], tieBreak := none,
           sortCol := "repo.uri",
           direction := "asc" } : ListQuery).direction = "asc")
    ∧ ∃ q, listSQL defaultOpts = .ok q :=
  ⟨spec_C10_sort_defaults.1 defaultOpts
    { conds := [Cond.notBlocked], tieBreak := none, sortCol := "repo.uri",
      direction := "asc" } rfl rfl (by decide),
   spec_C10_sort_defaults.2 defaultOpts rfl rfl rfl (by decide)⟩

end ReposStore
